import Mathlib

/-!
Formal model of the WARP split-tunnel manager (a Cloudflare Worker that keeps
Zoom's published IP ranges synchronized into WARP profile split-tunnel exclude
lists).  Each definition is a shallow embedding of one function of the source:

* `Warp.mergeSplitTunnelExcludeEntries`, `Warp.descHasZoom` —
  `src/services/cloudflareAPI.ts`, `mergeSplitTunnelExcludeEntries` /
  `updateProfileExcludeList` (the identical filter-and-append merge).
* `Warp.parseZoomIPText` and its validators — `zoomIPFetcher.ts`.
* `Warp.appendUpdateHistory`, `Warp.storeLastUpdate`, `Warp.isUpdateNeededCode`
  — `storageService.ts`.
* `Warp.processProfile`, `Warp.updateAccountWithZoomIPs` —
  `cloudflareAPI.ts`, `updateAccountWithZoomIPs` / `updateProfileExcludeList`.
* `Warp.tryBody`, `Warp.performUpdate` — `warpProfileManager.ts`,
  `performUpdate` (the variant with `hasIPChanges` change detection).

Network effects are modelled by environments that fix the outcome of each
remote call (`Except String _` for calls that can throw); JavaScript strings
are Lean `String`s (for the parser, `List Char`, so that the regex tests can
be stated structurally); ISO timestamps are modelled as epoch milliseconds
(`Int`).
-/

namespace Warp

/-- JavaScript `String.prototype.includes`: `needle` occurs as a contiguous
substring of `hay`. -/
def jsIncludes (needle : List Char) : List Char → Bool
  | [] => needle.isEmpty
  | c :: t => needle.isPrefixOf (c :: t) || jsIncludes needle t

/-- One split-tunnel exclude entry (`SplitTunnelEntry` in `types.ts`):
an address plus an optional free-text description. -/
structure SplitTunnelEntry where
  address : String
  description : Option String
deriving DecidableEq

/-- The source's test `entry.description?.toLowerCase().includes('zoom')`:
`false` when the description is absent (the optional chaining yields
`undefined`, which is falsy), otherwise a case-insensitive substring test.
Lowercasing is modelled per character (`toLowerCase`, ASCII range). -/
def descHasZoom : Option String → Bool
  | none => false
  | some s => jsIncludes "zoom".toList (s.toList.map Char.toLower)

/-- The marker description placed on every system-managed entry
(`cloudflareAPI.ts`, lines 217–220 and 302–305). -/
def autoDescription : String := "Zoom IP Range (Auto-updated)"

/-- `mergeSplitTunnelExcludeEntries` (`cloudflareAPI.ts` 204–228), with the
existing exclude list passed in instead of fetched: drop entries whose
description contains "zoom" case-insensitively, then append one tagged entry
per input IP.  `updateProfileExcludeList` (276–338) builds its PUT body with
the same two steps. -/
def mergeSplitTunnelExcludeEntries (existingEntries : List SplitTunnelEntry)
    (zoomIPs : List String) : List SplitTunnelEntry :=
  let nonZoomEntries := existingEntries.filter fun e => !(descHasZoom e.description)
  let zoomEntries := zoomIPs.map fun ip =>
    { address := ip, description := some autoDescription : SplitTunnelEntry }
  nonZoomEntries ++ zoomEntries

/-- Specification-side notion of a foreign entry: the description is absent or
does not contain "zoom" case-insensitively (spec §3, "ExcludeEntry"). -/
def isForeign (e : SplitTunnelEntry) : Bool :=
  match e.description with
  | none => true
  | some s => !(jsIncludes "zoom".toList (s.toList.map Char.toLower))

/-- Specification-side system-managed entry for one input IP. -/
def markerEntry (ip : String) : SplitTunnelEntry :=
  { address := ip, description := some autoDescription }

theorem descHasZoom_eq_not_isForeign (e : SplitTunnelEntry) :
    descHasZoom e.description = !(isForeign e) := by
  cases h : e.description <;> simp [descHasZoom, isForeign, h]

theorem descHasZoom_auto : descHasZoom (some autoDescription) = true := by
  decide

/-- C1: the merged exclude list is exactly the foreign entries of the existing
list, unchanged and in their original relative order, followed by one
system-managed entry per input IP in input order, each tagged with the fixed
marker description; instantiated on the spec's scenario with
existing = [{5.5.5.5, "VPN exempt"}, {9.9.9.9, "Zoom IP Range (old)"}] and
ips = [9.9.9.9, 8.8.8.8]. -/
theorem merge_foreign_then_markers :
    (∀ (existing : List SplitTunnelEntry) (ips : List String),
      mergeSplitTunnelExcludeEntries existing ips =
        existing.filter isForeign ++ ips.map markerEntry)
    ∧ mergeSplitTunnelExcludeEntries
        [⟨"5.5.5.5", some "VPN exempt"⟩, ⟨"9.9.9.9", some "Zoom IP Range (old)"⟩]
        ["9.9.9.9", "8.8.8.8"] =
      [⟨"5.5.5.5", some "VPN exempt"⟩,
       ⟨"9.9.9.9", some autoDescription⟩, ⟨"8.8.8.8", some autoDescription⟩] := by
  constructor
  · intro existing ips
    simp only [mergeSplitTunnelExcludeEntries, markerEntry]
    congr 1
    exact List.filter_congr fun e _ => by
      rw [descHasZoom_eq_not_isForeign, Bool.not_not]
  · decide

/-- C2: the merge is idempotent — re-merging its own output with the same
input IPs returns the same list, because every system-managed entry carries
the "zoom" marker and is stripped before the new entries are appended. -/
theorem merge_idempotent (existing : List SplitTunnelEntry) (ips : List String) :
    mergeSplitTunnelExcludeEntries (mergeSplitTunnelExcludeEntries existing ips) ips =
      mergeSplitTunnelExcludeEntries existing ips := by
  have hmark : ∀ ips' : List String,
      (ips'.map fun ip =>
          { address := ip, description := some autoDescription : SplitTunnelEntry }).filter
        (fun e => !(descHasZoom e.description)) = [] := by
    intro ips'
    apply List.filter_eq_nil_iff.mpr
    intro e he
    obtain ⟨ip, _, rfl⟩ := List.mem_map.mp he
    simp [descHasZoom_auto]
  simp only [mergeSplitTunnelExcludeEntries]
  rw [List.filter_append, hmark, List.append_nil, List.filter_filter]
  congr 1
  exact List.filter_congr fun e _ => by simp

/-! ### Zoom IP list parser (`zoomIPFetcher.ts`)

Lines of the fetched body are JavaScript strings; they are modelled as
`List Char` so that the two anchored regexes can be embedded structurally. -/

/-- JavaScript `String.prototype.split(sep)` for a one-character separator. -/
def splitOnChar (sep : Char) : List Char → List (List Char)
  | [] => [[]]
  | c :: cs =>
    if c = sep then [] :: splitOnChar sep cs
    else (splitOnChar sep cs).modifyHead (c :: ·)

/-- Whitespace removed by JavaScript `String.prototype.trim` (the ASCII
range, which is all that line-splitting an HTTP body can produce here). -/
def isJsWs (c : Char) : Bool :=
  c = ' ' || c = '\t' || c = '\n' || c = '\r' || c = '\x0b' || c = '\x0c'

/-- JavaScript `String.prototype.trim`. -/
def jsTrim (s : List Char) : List Char :=
  ((s.dropWhile isJsWs).reverse.dropWhile isJsWs).reverse

/-- Value of a decimal digit string. -/
def natOfDigits (ds : List Char) : Nat :=
  ds.foldl (fun a c => a * 10 + (c.toNat - '0'.toNat)) 0

/-- JavaScript `parseInt(s, 10)` on the shapes that occur here: the value of
the longest leading digit run, `none` (NaN) when there is no leading digit
(sign and whitespace handling are never exercised — the callers pass
regex-validated digit strings or `undefined`). -/
def jsParseInt (s : List Char) : Option Nat :=
  let ds := s.takeWhile Char.isDigit
  if ds.isEmpty then none else some (natOfDigits ds)

/-- `validateIP` (`zoomIPFetcher.ts` 115–121): split on '.', and require every
part to `parseInt` to a number in [0, 255] (NaN fails the comparison; the
lower bound is automatic over `Nat`). -/
def validateIP (ip : List Char) : Bool :=
  (splitOnChar '.' ip).all fun part =>
    match jsParseInt part with
    | none => false
    | some n => decide (n ≤ 255)

/-- `validateCIDR` (`zoomIPFetcher.ts` 126–135): destructure
`cidr.split('/')` into its first two parts (a missing second part is
`undefined`, whose `parseInt` is NaN) and check address and mask length. -/
def validateCIDR (cidr : List Char) : Bool :=
  match splitOnChar '/' cidr with
  | ipp :: mp :: _ =>
    validateIP ipp &&
      match jsParseInt mp with
      | none => false
      | some n => decide (n ≤ 32)
  | _ => false

/-- Consume `\d{1,3}` (greedy).  Because in both regexes the token after an
octet can never match a digit, greedy matching with backtracking accepts iff
the entire leading digit run has length 1–3, which is what is encoded here. -/
def octetShape (cs : List Char) : Option (List Char) :=
  let ds := cs.takeWhile Char.isDigit
  if 1 ≤ ds.length ∧ ds.length ≤ 3 then some (cs.dropWhile Char.isDigit) else none

/-- Consume one expected literal character. -/
def expectChar (c : Char) : List Char → Option (List Char)
  | x :: xs => if x = c then some xs else none
  | [] => none

/-- Consume `(\d{1,3}\.){3}\d{1,3}`. -/
def ipShapeTail (cs : List Char) : Option (List Char) :=
  (octetShape cs).bind fun r1 =>
    (expectChar '.' r1).bind fun r2 =>
      (octetShape r2).bind fun r3 =>
        (expectChar '.' r3).bind fun r4 =>
          (octetShape r4).bind fun r5 =>
            (expectChar '.' r5).bind fun r6 =>
              octetShape r6

/-- The test of the anchored `ipRegex` `^(\d{1,3}\.){3}\d{1,3}$`. -/
def ipRegexTest (cs : List Char) : Bool := ipShapeTail cs == some []

/-- Consume `\d{1,2}` (greedy, same argument as `octetShape`). -/
def maskShape (cs : List Char) : Option (List Char) :=
  let ds := cs.takeWhile Char.isDigit
  if 1 ≤ ds.length ∧ ds.length ≤ 2 then some (cs.dropWhile Char.isDigit) else none

/-- The test of the anchored `cidrRegex` `^(\d{1,3}\.){3}\d{1,3}\/\d{1,2}$`. -/
def cidrRegexTest (cs : List Char) : Bool :=
  ((ipShapeTail cs).bind fun r =>
    (expectChar '/' r).bind fun m => maskShape m) == some []

/-- `isValidIPOrCIDR` (`zoomIPFetcher.ts` 96–110): try the CIDR regex, then
the plain-IP regex, and on a shape match check the octet/mask values. -/
def isValidIPOrCIDR (v : List Char) : Bool :=
  if cidrRegexTest v then validateCIDR v
  else if ipRegexTest v then validateIP v
  else false

/-- `parseZoomIPText` (`zoomIPFetcher.ts` 70–91): split the body on newlines,
trim each line, skip blank lines and lines starting with '#', and keep (in
source order) exactly the lines accepted by `isValidIPOrCIDR`; rejected lines
are logged and dropped, never an error. -/
def parseZoomIPText (text : List Char) : List (List Char) :=
  (splitOnChar '\n' text).foldl
    (fun ips line =>
      let trimmed := jsTrim line
      if trimmed.isEmpty then ips
      else if trimmed.head? == some '#' then ips
      else if isValidIPOrCIDR trimmed then ips ++ [trimmed]
      else ips)
    []

/-- The IP snapshot (`ZoomIPData` in `types.ts`, fetch metadata omitted):
the accepted entries plus their stored count. -/
structure ZoomIPData where
  ips : List String
  total_count : Nat
deriving DecidableEq

/-- The snapshot built by `fetchZoomIPs` (`zoomIPFetcher.ts` 42–47):
`total_count` is the number of accepted entries. -/
def mkSnapshot (ips : List (List Char)) : ZoomIPData :=
  { ips := ips.map fun cs => ⟨cs⟩, total_count := ips.length }

/-! Specification-side parser predicates (claim C4 / spec §4.1): a line is
valid iff it is a plain dotted-quad IPv4 — four decimal numerals of one to
three digits, each with value in [0, 255] — or such an address followed by
`/` and a mask length of one or two digits with value in [0, 32]. -/

/-- Specification-side octet. -/
def specOctet (p : List Char) : Bool :=
  decide (1 ≤ p.length) && decide (p.length ≤ 3) && p.all Char.isDigit &&
    decide (natOfDigits p ≤ 255)

/-- Specification-side mask length. -/
def specMask (p : List Char) : Bool :=
  decide (1 ≤ p.length) && decide (p.length ≤ 2) && p.all Char.isDigit &&
    decide (natOfDigits p ≤ 32)

/-- Specification-side dotted-quad IPv4. -/
def specIPv4 (s : List Char) : Bool :=
  match splitOnChar '.' s with
  | [a, b, c, d] => specOctet a && specOctet b && specOctet c && specOctet d
  | _ => false

/-- Specification-side valid line. -/
def specValidLine (s : List Char) : Bool :=
  match splitOnChar '/' s with
  | [ip] => specIPv4 ip
  | [ip, m] => specIPv4 ip && specMask m
  | _ => false

/-- Specification-side acceptance of a trimmed line: non-blank, not a
comment, and a valid address. -/
def specAccept (t : List Char) : Bool :=
  !t.isEmpty && !(t.head? == some '#') && specValidLine t

/-- Code-side acceptance of a trimmed line. -/
def codeAccept (t : List Char) : Bool :=
  !t.isEmpty && !(t.head? == some '#') && isValidIPOrCIDR t

theorem parse_foldl_aux (lines : List (List Char)) (acc : List (List Char)) :
    lines.foldl
      (fun ips line =>
        let trimmed := jsTrim line
        if trimmed.isEmpty then ips
        else if trimmed.head? == some '#' then ips
        else if isValidIPOrCIDR trimmed then ips ++ [trimmed]
        else ips)
      acc = acc ++ (lines.map jsTrim).filter codeAccept := by
  induction lines generalizing acc with
  | nil => simp
  | cons line rest ih =>
    simp only [List.foldl_cons, List.map_cons, List.filter_cons, ih]
    by_cases h1 : (jsTrim line).isEmpty
    · simp [codeAccept, h1]
    · by_cases h2 : (jsTrim line).head? == some '#'
      · simp [codeAccept, h1, h2]
      · by_cases h3 : isValidIPOrCIDR (jsTrim line)
        · simp [codeAccept, h1, h2, h3]
        · simp [codeAccept, h1, h2, h3]

/-- The parser keeps, in source order and with multiplicity, exactly the
trimmed lines it accepts. -/
theorem parseZoomIPText_eq_filter (text : List Char) :
    parseZoomIPText text =
      ((splitOnChar '\n' text).map jsTrim).filter codeAccept := by
  simpa [parseZoomIPText] using parse_foldl_aux (splitOnChar '\n' text) []

/-! Structural facts about `splitOnChar`. -/

theorem splitOnChar_ne_nil (sep : Char) (s : List Char) : splitOnChar sep s ≠ [] := by
  induction s with
  | nil => simp [splitOnChar]
  | cons c cs ih =>
    simp only [splitOnChar]
    split
    · simp
    · cases h : splitOnChar sep cs with
      | nil => exact absurd h ih
      | cons g gs => simp [List.modifyHead]

theorem splitOnChar_of_not_mem {sep : Char} {xs : List Char} (h : sep ∉ xs) :
    splitOnChar sep xs = [xs] := by
  induction xs with
  | nil => rfl
  | cons c cs ih =>
    have hc : ¬(c = sep) := fun e => h (e ▸ List.mem_cons_self c cs)
    have hcs : sep ∉ cs := fun m => h (List.mem_cons_of_mem _ m)
    simp [splitOnChar, hc, ih hcs, List.modifyHead]

theorem splitOnChar_append {sep : Char} {xs : List Char} (h : sep ∉ xs) (ys : List Char) :
    splitOnChar sep (xs ++ sep :: ys) = xs :: splitOnChar sep ys := by
  induction xs with
  | nil => simp [splitOnChar]
  | cons c cs ih =>
    have hc : ¬(c = sep) := fun e => h (e ▸ List.mem_cons_self c cs)
    have hcs : sep ∉ cs := fun m => h (List.mem_cons_of_mem _ m)
    cases hs : splitOnChar sep (cs ++ sep :: ys) with
    | nil => exact absurd hs (splitOnChar_ne_nil sep _)
    | cons g gs =>
      have := ih hcs
      rw [hs] at this
      simp [splitOnChar, hc, hs, List.modifyHead, this]

theorem not_mem_of_mem_splitOnChar {sep : Char} :
    ∀ {s g : List Char}, g ∈ splitOnChar sep s → sep ∉ g := by
  intro s
  induction s with
  | nil =>
    intro g hg
    simp [splitOnChar] at hg
    subst hg
    simp
  | cons c cs ih =>
    intro g hg
    by_cases hc : c = sep
    · simp [splitOnChar, hc] at hg
      rcases hg with rfl | hg
      · simp
      · exact ih hg
    · cases hsp : splitOnChar sep cs with
      | nil => exact absurd hsp (splitOnChar_ne_nil sep cs)
      | cons g0 gs =>
        have hg0 : g0 ∈ splitOnChar sep cs := by
          rw [hsp]; exact List.mem_cons_self _ _
        simp [splitOnChar, hc, hsp, List.modifyHead] at hg
        rcases hg with rfl | hg
        · intro hm
          rcases List.mem_cons.mp hm with rfl | hm2
          · exact hc rfl
          · exact (ih hg0) hm2
        · exact ih (by rw [hsp]; exact List.mem_cons_of_mem g0 hg)

/-- Inverse of `splitOnChar`: interleave the separator back. -/
def joinSep (sep : Char) : List (List Char) → List Char
  | [] => []
  | [g] => g
  | g :: gs => g ++ sep :: joinSep sep gs

theorem joinSep_cons_cons (sep x : Char) (g : List Char) (gs : List (List Char)) :
    joinSep sep ((x :: g) :: gs) = x :: joinSep sep (g :: gs) := by
  cases gs <;> simp [joinSep]

theorem joinSep_splitOnChar (sep : Char) (s : List Char) :
    joinSep sep (splitOnChar sep s) = s := by
  induction s with
  | nil => rfl
  | cons c cs ih =>
    by_cases hc : c = sep
    · cases hsp : splitOnChar sep cs with
      | nil => exact absurd hsp (splitOnChar_ne_nil sep cs)
      | cons g0 gs =>
        rw [hsp] at ih
        subst hc
        simp [splitOnChar, hsp, joinSep, ih]
    · cases hsp : splitOnChar sep cs with
      | nil => exact absurd hsp (splitOnChar_ne_nil sep cs)
      | cons g0 gs =>
        rw [hsp] at ih
        simp [splitOnChar, hc, hsp, List.modifyHead, joinSep_cons_cons, ih]

/-! Digit-run decomposition of the regex pieces. -/

/-- The first character (if any) is not a digit. -/
def headNotDigit : List Char → Prop
  | [] => True
  | y :: _ => Char.isDigit y = false

theorem digit_span (ds rest : List Char) (hd : ∀ x ∈ ds, Char.isDigit x = true)
    (hr : headNotDigit rest) :
    (ds ++ rest).takeWhile Char.isDigit = ds ∧
      (ds ++ rest).dropWhile Char.isDigit = rest := by
  induction ds with
  | nil =>
    cases rest with
    | nil => simp
    | cons y ys =>
      simp only [headNotDigit] at hr
      simp [List.takeWhile_cons, List.dropWhile_cons, hr]
  | cons x xs ih =>
    have hx : Char.isDigit x = true := hd x (List.mem_cons_self _ _)
    have hxs : ∀ a ∈ xs, Char.isDigit a = true := fun a ha => hd a (List.mem_cons_of_mem _ ha)
    obtain ⟨h1, h2⟩ := ih hxs
    simp [List.takeWhile_cons, List.dropWhile_cons, hx, h1, h2]

/-- A digit run of length 1–3 (the semantics of one `\d{1,3}` octet). -/
def okOctet (ds : List Char) : Prop :=
  (∀ x ∈ ds, Char.isDigit x = true) ∧ 1 ≤ ds.length ∧ ds.length ≤ 3

/-- A digit run of length 1–2 (the semantics of `\d{1,2}`). -/
def okMask (ds : List Char) : Prop :=
  (∀ x ∈ ds, Char.isDigit x = true) ∧ 1 ≤ ds.length ∧ ds.length ≤ 2

theorem octetShape_eq_some {cs rest : List Char} (h : octetShape cs = some rest) :
    ∃ ds, cs = ds ++ rest ∧ okOctet ds := by
  simp only [octetShape] at h
  split at h
  · rename_i hlen
    refine ⟨cs.takeWhile Char.isDigit, ?_, ?_, hlen.1, hlen.2⟩
    · rw [← Option.some_inj.mp h, List.takeWhile_append_dropWhile]
    · exact fun x hx => List.mem_takeWhile_imp hx
  · exact absurd h (by simp)

theorem octetShape_append {ds rest : List Char} (hd : okOctet ds)
    (hr : headNotDigit rest) : octetShape (ds ++ rest) = some rest := by
  obtain ⟨ht, hdr⟩ := digit_span ds rest hd.1 hr
  simp [octetShape, ht, hdr, hd.2.1, hd.2.2]

theorem maskShape_eq_some {cs rest : List Char} (h : maskShape cs = some rest) :
    ∃ ds, cs = ds ++ rest ∧ okMask ds := by
  simp only [maskShape] at h
  split at h
  · rename_i hlen
    refine ⟨cs.takeWhile Char.isDigit, ?_, ?_, hlen.1, hlen.2⟩
    · rw [← Option.some_inj.mp h, List.takeWhile_append_dropWhile]
    · exact fun x hx => List.mem_takeWhile_imp hx
  · exact absurd h (by simp)

theorem maskShape_append {ds rest : List Char} (hd : okMask ds)
    (hr : headNotDigit rest) : maskShape (ds ++ rest) = some rest := by
  obtain ⟨ht, hdr⟩ := digit_span ds rest hd.1 hr
  simp [maskShape, ht, hdr, hd.2.1, hd.2.2]

theorem expectChar_eq_some {c : Char} {r rest : List Char}
    (h : expectChar c r = some rest) : r = c :: rest := by
  cases r with
  | nil => simp [expectChar] at h
  | cons x xs =>
    simp only [expectChar] at h
    split at h
    · rename_i he
      rw [he, Option.some_inj.mp h]
    · exact absurd h (by simp)

theorem ipShapeTail_eq_some {s rest : List Char} (h : ipShapeTail s = some rest) :
    ∃ a b c d, s = a ++ '.' :: (b ++ '.' :: (c ++ '.' :: (d ++ rest))) ∧
      okOctet a ∧ okOctet b ∧ okOctet c ∧ okOctet d := by
  simp only [ipShapeTail, Option.bind_eq_some] at h
  obtain ⟨r1, h1, r2, h2, r3, h3, r4, h4, r5, h5, r6, h6, h7⟩ := h
  obtain ⟨a, rfl, ha⟩ := octetShape_eq_some h1
  obtain ⟨b, rfl, hb⟩ := octetShape_eq_some h3
  obtain ⟨c, rfl, hc⟩ := octetShape_eq_some h5
  obtain ⟨d, rfl, hd⟩ := octetShape_eq_some h7
  rw [expectChar_eq_some h2, expectChar_eq_some h4, expectChar_eq_some h6]
  exact ⟨a, b, c, d, rfl, ha, hb, hc, hd⟩

theorem dot_not_digit : Char.isDigit '.' = false := by decide

theorem slash_not_digit : Char.isDigit '/' = false := by decide

theorem expectChar_cons (c : Char) (t : List Char) : expectChar c (c :: t) = some t := by
  simp [expectChar]

theorem ipShapeTail_append {a b c d rest : List Char}
    (ha : okOctet a) (hb : okOctet b) (hc : okOctet c) (hd : okOctet d)
    (hr : headNotDigit rest) :
    ipShapeTail (a ++ '.' :: (b ++ '.' :: (c ++ '.' :: (d ++ rest)))) = some rest := by
  have hdot : ∀ t : List Char, headNotDigit ('.' :: t) := fun t => dot_not_digit
  simp only [ipShapeTail]
  rw [octetShape_append ha (hdot _), Option.some_bind, expectChar_cons, Option.some_bind,
    octetShape_append hb (hdot _), Option.some_bind, expectChar_cons, Option.some_bind,
    octetShape_append hc (hdot _), Option.some_bind, expectChar_cons, Option.some_bind,
    octetShape_append hd hr]

theorem not_mem_of_all_digit {l : List Char} (h : ∀ x ∈ l, Char.isDigit x = true)
    {c : Char} (hc : Char.isDigit c = false) : c ∉ l := by
  intro hm
  have h2 := h c hm
  rw [hc] at h2
  exact Bool.noConfusion h2

theorem jsParseInt_digits {ds : List Char} (h : ∀ x ∈ ds, Char.isDigit x = true)
    (hne : ds ≠ []) : jsParseInt ds = some (natOfDigits ds) := by
  have ht : ds.takeWhile Char.isDigit = ds := List.takeWhile_eq_self_iff.mpr h
  simp [jsParseInt, ht, hne]

theorem specOctet_val {ds : List Char} (h : okOctet ds) :
    specOctet ds = decide (natOfDigits ds ≤ 255) := by
  have hall : ds.all Char.isDigit = true := List.all_eq_true.mpr h.1
  simp [specOctet, h.2.1, h.2.2, hall]

theorem specMask_val {ds : List Char} (h : okMask ds) :
    specMask ds = decide (natOfDigits ds ≤ 32) := by
  have hall : ds.all Char.isDigit = true := List.all_eq_true.mpr h.1
  simp [specMask, h.2.1, h.2.2, hall]

theorem okOctet_of_specOctet {ds : List Char} (h : specOctet ds = true) :
    okOctet ds ∧ natOfDigits ds ≤ 255 := by
  simp only [specOctet, Bool.and_eq_true, decide_eq_true_eq, List.all_eq_true] at h
  exact ⟨⟨h.1.2, h.1.1.1, h.1.1.2⟩, h.2⟩

theorem okMask_of_specMask {ds : List Char} (h : specMask ds = true) :
    okMask ds ∧ natOfDigits ds ≤ 32 := by
  simp only [specMask, Bool.and_eq_true, decide_eq_true_eq, List.all_eq_true] at h
  exact ⟨⟨h.1.2, h.1.1.1, h.1.1.2⟩, h.2⟩

theorem okOctet_ne_nil {ds : List Char} (h : okOctet ds) : ds ≠ [] := by
  intro e
  rw [e] at h
  exact absurd h.2.1 (by simp)

theorem okMask_ne_nil {ds : List Char} (h : okMask ds) : ds ≠ [] := by
  intro e
  rw [e] at h
  exact absurd h.2.1 (by simp)

/-- The key refinement for claim C4: the code's validator (two regexes plus
`parseInt` range checks) accepts exactly the specification's valid lines. -/
theorem isValidIPOrCIDR_eq_spec (s : List Char) :
    isValidIPOrCIDR s = specValidLine s := by
  by_cases hcidr : cidrRegexTest s = true
  · -- CIDR shape matched: both sides reduce to the same octet/mask checks.
    have h0 : ((ipShapeTail s).bind fun r =>
        (expectChar '/' r).bind fun m => maskShape m) = some [] := by
      simpa [cidrRegexTest] using hcidr
    rw [Option.bind_eq_some] at h0
    obtain ⟨r, hip, h1⟩ := h0
    rw [Option.bind_eq_some] at h1
    obtain ⟨m, hsl, hmask⟩ := h1
    obtain ⟨dm, hdm, hmok⟩ := maskShape_eq_some hmask
    rw [List.append_nil] at hdm
    subst hdm
    obtain ⟨a, b, c, d, hs, ha, hb, hc2, hd⟩ := ipShapeTail_eq_some hip
    rw [expectChar_eq_some hsl] at hs
    have hs2 : s = (a ++ '.' :: (b ++ '.' :: (c ++ '.' :: d))) ++ '/' :: m := by
      rw [hs]; simp
    have hslash_ip : '/' ∉ a ++ '.' :: (b ++ '.' :: (c ++ '.' :: d)) := by
      intro hm
      simp only [List.mem_append, List.mem_cons] at hm
      rcases hm with h' | h' | h' | h' | h' | h'
      · exact not_mem_of_all_digit ha.1 slash_not_digit h'
      · exact absurd h' (by decide)
      · exact not_mem_of_all_digit hb.1 slash_not_digit h'
      · exact absurd h' (by decide)
      · exact not_mem_of_all_digit hc2.1 slash_not_digit h'
      · rcases h' with h' | h'
        · exact absurd h' (by decide)
        · exact not_mem_of_all_digit hd.1 slash_not_digit h'
    have hsplit1 : splitOnChar '/' s = [a ++ '.' :: (b ++ '.' :: (c ++ '.' :: d)), m] := by
      rw [hs2, splitOnChar_append hslash_ip,
        splitOnChar_of_not_mem (not_mem_of_all_digit hmok.1 slash_not_digit)]
    have hsplitdot : splitOnChar '.' (a ++ '.' :: (b ++ '.' :: (c ++ '.' :: d))) =
        [a, b, c, d] := by
      rw [splitOnChar_append (not_mem_of_all_digit ha.1 dot_not_digit),
        splitOnChar_append (not_mem_of_all_digit hb.1 dot_not_digit),
        splitOnChar_append (not_mem_of_all_digit hc2.1 dot_not_digit),
        splitOnChar_of_not_mem (not_mem_of_all_digit hd.1 dot_not_digit)]
    rw [show isValidIPOrCIDR s = validateCIDR s by simp [isValidIPOrCIDR, hcidr]]
    simp only [validateCIDR, specValidLine, hsplit1, validateIP, specIPv4, hsplitdot,
      List.all_cons, List.all_nil,
      jsParseInt_digits ha.1 (okOctet_ne_nil ha),
      jsParseInt_digits hb.1 (okOctet_ne_nil hb),
      jsParseInt_digits hc2.1 (okOctet_ne_nil hc2),
      jsParseInt_digits hd.1 (okOctet_ne_nil hd),
      jsParseInt_digits hmok.1 (okMask_ne_nil hmok),
      specOctet_val ha, specOctet_val hb, specOctet_val hc2, specOctet_val hd,
      specMask_val hmok]
    cases decide (natOfDigits a ≤ 255) <;> cases decide (natOfDigits b ≤ 255) <;>
      cases decide (natOfDigits c ≤ 255) <;> cases decide (natOfDigits d ≤ 255) <;>
      cases decide (natOfDigits m ≤ 32) <;> rfl
  · by_cases hipr : ipRegexTest s = true
    · -- plain-IP shape matched (and no '/' is present in s at all).
      have h0 : ipShapeTail s = some [] := by simpa [ipRegexTest] using hipr
      obtain ⟨a, b, c, d, hs, ha, hb, hc2, hd⟩ := ipShapeTail_eq_some h0
      rw [List.append_nil] at hs
      have hslash_ip : '/' ∉ a ++ '.' :: (b ++ '.' :: (c ++ '.' :: d)) := by
        intro hm
        simp only [List.mem_append, List.mem_cons] at hm
        rcases hm with h' | h' | h' | h' | h' | h'
        · exact not_mem_of_all_digit ha.1 slash_not_digit h'
        · exact absurd h' (by decide)
        · exact not_mem_of_all_digit hb.1 slash_not_digit h'
        · exact absurd h' (by decide)
        · exact not_mem_of_all_digit hc2.1 slash_not_digit h'
        · rcases h' with h' | h'
          · exact absurd h' (by decide)
          · exact not_mem_of_all_digit hd.1 slash_not_digit h'
      have hsplit1 : splitOnChar '/' s = [s] := by
        rw [hs]
        exact splitOnChar_of_not_mem hslash_ip
      have hsplitdot : splitOnChar '.' s = [a, b, c, d] := by
        rw [hs, splitOnChar_append (not_mem_of_all_digit ha.1 dot_not_digit),
          splitOnChar_append (not_mem_of_all_digit hb.1 dot_not_digit),
          splitOnChar_append (not_mem_of_all_digit hc2.1 dot_not_digit),
          splitOnChar_of_not_mem (not_mem_of_all_digit hd.1 dot_not_digit)]
      rw [show isValidIPOrCIDR s = validateIP s by simp [isValidIPOrCIDR, hcidr, hipr]]
      simp only [specValidLine, hsplit1, validateIP, specIPv4, hsplitdot,
        List.all_cons, List.all_nil,
        jsParseInt_digits ha.1 (okOctet_ne_nil ha),
        jsParseInt_digits hb.1 (okOctet_ne_nil hb),
        jsParseInt_digits hc2.1 (okOctet_ne_nil hc2),
        jsParseInt_digits hd.1 (okOctet_ne_nil hd),
        specOctet_val ha, specOctet_val hb, specOctet_val hc2, specOctet_val hd]
      cases decide (natOfDigits a ≤ 255) <;> cases decide (natOfDigits b ≤ 255) <;>
        cases decide (natOfDigits c ≤ 255) <;> cases decide (natOfDigits d ≤ 255) <;> rfl
    · -- no shape matched: the code rejects, and the spec predicate is false,
      -- for otherwise one of the two regexes would have matched.
      rw [show isValidIPOrCIDR s = false by simp [isValidIPOrCIDR, hcidr, hipr]]
      cases hspec : specValidLine s
      · rfl
      · exfalso
        rw [specValidLine] at hspec
        split at hspec
        · rename_i ip hsp
          have hsip : s = ip := by
            have := joinSep_splitOnChar '/' s
            rw [hsp] at this
            simpa [joinSep] using this.symm
          subst hsip
          rw [specIPv4] at hspec
          split at hspec
          · rename_i a b c d hspd
            have hsd : s = a ++ '.' :: (b ++ '.' :: (c ++ '.' :: d)) := by
              have := joinSep_splitOnChar '.' s
              rw [hspd] at this
              simpa [joinSep] using this.symm
            simp only [Bool.and_eq_true] at hspec
            obtain ⟨⟨⟨h1, h2⟩, h3⟩, h4⟩ := hspec
            obtain ⟨ha, _⟩ := okOctet_of_specOctet h1
            obtain ⟨hb, _⟩ := okOctet_of_specOctet h2
            obtain ⟨hc2, _⟩ := okOctet_of_specOctet h3
            obtain ⟨hd, _⟩ := okOctet_of_specOctet h4
            have : ipShapeTail s = some [] := by
              have h' := @ipShapeTail_append a b c d [] ha hb hc2 hd trivial
              rw [List.append_nil] at h'
              rw [hsd]
              exact h'
            exact hipr (by simp [ipRegexTest, this])
          · exact Bool.noConfusion hspec
        · rename_i ip m hsp
          have hsim : s = ip ++ '/' :: m := by
            have := joinSep_splitOnChar '/' s
            rw [hsp] at this
            simpa [joinSep] using this.symm
          simp only [Bool.and_eq_true] at hspec
          obtain ⟨hip4, hmk⟩ := hspec
          obtain ⟨hmok, _⟩ := okMask_of_specMask hmk
          rw [specIPv4] at hip4
          split at hip4
          · rename_i a b c d hspd
            have hsd : ip = a ++ '.' :: (b ++ '.' :: (c ++ '.' :: d)) := by
              have := joinSep_splitOnChar '.' ip
              rw [hspd] at this
              simpa [joinSep] using this.symm
            simp only [Bool.and_eq_true] at hip4
            obtain ⟨⟨⟨h1, h2⟩, h3⟩, h4⟩ := hip4
            obtain ⟨ha, _⟩ := okOctet_of_specOctet h1
            obtain ⟨hb, _⟩ := okOctet_of_specOctet h2
            obtain ⟨hc2, _⟩ := okOctet_of_specOctet h3
            obtain ⟨hd, _⟩ := okOctet_of_specOctet h4
            have hshape : ipShapeTail s = some ('/' :: m) := by
              rw [hsim, hsd]
              have := @ipShapeTail_append a b c d ('/' :: m) ha hb hc2 hd slash_not_digit
              rw [← this]
              congr 1
              simp
            have hmsk : maskShape m = some [] := by
              have h' := @maskShape_append m [] hmok trivial
              rw [List.append_nil] at h'
              exact h'
            exact hcidr (by simp [cidrRegexTest, hshape, expectChar_cons, hmsk])
          · exact Bool.noConfusion hip4
        · exact Bool.noConfusion hspec

/-- C4: the parser accepts a trimmed line iff it is non-blank, does not begin
with '#', and is a plain dotted-quad IPv4 or CIDR with every octet in 0–255
and mask length in 0–32; rejected lines are dropped (the parser is a total
function), accepted entries keep source order without de-duplication, the
snapshot count equals the number of accepted entries, and parsing
"# comment\n10.0.0.0/8\n1.2.3.4\nbad-line\n" yields exactly 10.0.0.0/8 and
1.2.3.4. -/
theorem parser_accepts_iff_valid :
    (∀ text : List Char,
      parseZoomIPText text = ((splitOnChar '\n' text).map jsTrim).filter specAccept)
    ∧ (∀ t : List Char, isValidIPOrCIDR t = specValidLine t)
    ∧ (∀ text : List Char,
        (mkSnapshot (parseZoomIPText text)).total_count = (parseZoomIPText text).length)
    ∧ parseZoomIPText "# comment\n10.0.0.0/8\n1.2.3.4\nbad-line\n".toList =
        ["10.0.0.0/8".toList, "1.2.3.4".toList] := by
  refine ⟨?_, isValidIPOrCIDR_eq_spec, fun _ => rfl, ?_⟩
  · intro text
    rw [parseZoomIPText_eq_filter]
    exact List.filter_congr fun t _ => by
      simp [codeAccept, specAccept, isValidIPOrCIDR_eq_spec]
  · decide

/-! ### Storage service (`storageService.ts`)

The KV store is modelled as a record of the three values the orchestrator
reads and writes (the selected account lives in the manager environment).
ISO-8601 timestamps are modelled as epoch milliseconds. -/

/-- One per-profile outcome inside an `UpdateResult` / the client result. -/
structure ProfileResult where
  profileId : String
  profileName : String
  success : Bool
  error : Option String := none
  reason : Option String := none
deriving DecidableEq

/-- `UpdateResult` (`types.ts`), with the fields the modelled code reads or
writes; `timestamp` is `new Date().toISOString()` as epoch milliseconds and
`processing_time_ms` is the measured duration. -/
structure UpdateResult where
  success : Bool
  account_id : String
  account_name : String
  profiles_updated : Nat
  profiles_failed : Nat
  ips_added : Nat
  processing_time_ms : Int
  timestamp : Int
  error : Option String := none
  message : Option String := none
  updated_profiles : List ProfileResult := []
deriving DecidableEq

/-- The three KV slots the orchestrator touches
(`zoom_ips`, `last_update`, `update_history`). -/
structure Storage where
  zoomIPs : Option ZoomIPData := none
  lastUpdate : Option UpdateResult := none
  history : List UpdateResult := []
deriving DecidableEq

/-- `appendUpdateHistory` (`storageService.ts` 79–92): `unshift` the new
result, then truncate with `slice(0, 50)` when the list exceeds 50. -/
def appendUpdateHistory (result : UpdateResult) (history : List UpdateResult) :
    List UpdateResult :=
  let h := result :: history
  if h.length > 50 then h.take 50 else h

/-- `storeLastUpdate` (`storageService.ts` 58–63): store as last result and
append to history. -/
def storeLastUpdate (result : UpdateResult) (st : Storage) : Storage :=
  { st with lastUpdate := some result,
            history := appendUpdateHistory result st.history }

/-- The history produced by a sequence of stores, oldest first, starting from
an empty store. -/
def historyOf (results : List UpdateResult) : List UpdateResult :=
  results.foldl (fun h r => appendUpdateHistory r h) []

theorem appendUpdateHistory_eq_take (r : UpdateResult) (h : List UpdateResult) :
    appendUpdateHistory r h = (r :: h).take 50 := by
  simp only [appendUpdateHistory]
  split
  · rfl
  · rename_i hlen
    exact (List.take_of_length_le (by omega)).symm

theorem historyOf_eq (results : List UpdateResult) :
    historyOf results = results.reverse.take 50 := by
  induction results using List.reverseRecOn with
  | nil => rfl
  | append_singleton rs r ih =>
    have hfold : historyOf (rs ++ [r]) = appendUpdateHistory r (historyOf rs) := by
      simp [historyOf, List.foldl_append]
    rw [hfold, ih, appendUpdateHistory_eq_take, List.reverse_append]
    simp only [List.reverse_cons, List.reverse_nil, List.nil_append, List.singleton_append]
    rw [show (50 : Nat) = 49 + 1 from rfl, List.take_succ_cons, List.take_succ_cons,
      List.take_take]
    rfl

/-- C8: after any sequence of stored results the history holds at most 50
entries; it equals the reversed sequence (newest first) truncated to 50, so
the entries dropped at the cap are exactly the oldest ones; and the most
recently stored result is at index 0. -/
theorem history_capped_newest_first (results : List UpdateResult) (r : UpdateResult) :
    (historyOf results).length ≤ 50
    ∧ historyOf results = results.reverse.take 50
    ∧ (historyOf (results ++ [r])).head? = some r := by
  refine ⟨?_, historyOf_eq results, ?_⟩
  · rw [historyOf_eq]
    exact List.length_take_le 50 results.reverse
  · rw [historyOf_eq, List.reverse_append]
    simp only [List.reverse_cons, List.reverse_nil, List.nil_append, List.singleton_append]
    rw [show (50 : Nat) = 49 + 1 from rfl, List.take_succ_cons]
    rfl

/-- `isUpdateNeeded` (`storageService.ts` 122–134) exactly as written: true
with no stored result; otherwise the "last update time" is
`new Date(lastUpdate.processing_time_ms).getTime()`, i.e. the stored
processing duration re-interpreted as an epoch instant, and the elapsed hours
are compared against the interval. -/
def isUpdateNeededCode (lastUpdate : Option UpdateResult) (nowMs : Int)
    (intervalHours : Int) : Bool :=
  match lastUpdate with
  | none => true
  | some r =>
    let lastUpdateTime : Int := r.processing_time_ms
    let hoursSinceUpdate : ℚ := ((nowMs - lastUpdateTime : Int) : ℚ) / (1000 * 60 * 60)
    decide (hoursSinceUpdate ≥ (intervalHours : ℚ))

/-- Modelled from the spec (§4.4 scheduling decision, claim C3): elapsed time
is measured from the last result's `timestamp`. -/
def isUpdateNeededSpec (lastUpdate : Option UpdateResult) (nowMs : Int)
    (intervalHours : Int) : Bool :=
  match lastUpdate with
  | none => true
  | some r =>
    decide (((nowMs - r.timestamp : Int) : ℚ) / (1000 * 60 * 60) ≥ (intervalHours : ℚ))

/-- A result stored at epoch 1700000000000 ms whose update pass took 5
seconds. -/
def freshResult : UpdateResult :=
  { success := true, account_id := "acc", account_name := "Acme",
    profiles_updated := 1, profiles_failed := 0, ips_added := 2,
    processing_time_ms := 5000, timestamp := 1700000000000 }

/-- C3 (divergence): with no stored result both the code and the spec reading
return true, but for a result stored just now (elapsed 0 h, interval 24 h)
the code returns true — it measures elapsed time from `processing_time_ms`,
a duration, instead of `timestamp` — while the specified behaviour is
false. -/
theorem isUpdateNeeded_uses_duration_not_timestamp :
    (∀ nowMs intervalHours : Int,
        isUpdateNeededCode none nowMs intervalHours = true
        ∧ isUpdateNeededSpec none nowMs intervalHours = true)
    ∧ isUpdateNeededCode (some freshResult) 1700000000000 24 = true
    ∧ isUpdateNeededSpec (some freshResult) 1700000000000 24 = false := by
  refine ⟨fun _ _ => ⟨rfl, rfl⟩, ?_, ?_⟩
  · simp only [isUpdateNeededCode, freshResult, decide_eq_true_eq, ge_iff_le]
    norm_num
  · simp only [isUpdateNeededSpec, freshResult, decide_eq_false_iff_not, ge_iff_le]
    norm_num

/-! ### Access-control client (`cloudflareAPI.ts`, `updateAccountWithZoomIPs`)

Each remote profile is modelled by the outcomes the API would return for it:
the details fetched for classification (also used by
`updateProfileExcludeList`, which re-fetches the same profile), and the
outcome of the PUT of the merged exclude list. -/

/-- The profile-details payload: its `include` and `exclude` fields, `none`
when the field is absent (`include` and `exclude` are reserved words in
Lean, hence the suffixed names). -/
structure ProfileDetails where
  includeList : Option (List SplitTunnelEntry)
  excludeList : Option (List SplitTunnelEntry)

/-- One profile as the loop sees it: `policyId` is the resolved
`profile.policy_id || profile.id` (`none` when both are falsy), `name` is
`profile.name` (`none` when falsy), `isDefaultFlag` is `profile.is_default`. -/
structure ProfileEnv where
  policyId : Option String
  name : Option String
  isDefaultFlag : Bool
  details : Except String ProfileDetails
  putOutcome : Except String Unit

/-- The skip reason recorded for include-mode profiles
(`cloudflareAPI.ts` 393). -/
def includeModeReason : String :=
  "Profile uses include mode - Cannot add Zoom IPs (include mode specifies which IPs go through tunnel, not which bypass it)"

/-- The reason recorded for updated profiles (`cloudflareAPI.ts` 405). -/
def excludeModeReason : String :=
  "Profile uses exclude mode - Zoom IPs added to split tunnel exclude list"

/-- Outcome of one iteration of the profile loop. -/
structure StepOut where
  result : ProfileResult
  didUpdate : Bool
  didFail : Bool
  write : Option (List SplitTunnelEntry)

/-- One iteration of the profile loop (`cloudflareAPI.ts` 363–429).  Loop
iterations are independent (the loop state is only the counters and the
accumulated lists), so the loop is modelled as a map over this step.
`didUpdate`/`didFail` record which counter the iteration increments; `write`
is the merged exclude list whose PUT `updateProfileExcludeList` attempts
(`none` when no PUT is attempted).  The branch condition
`hasExclude || (!hasInclude && !hasExclude)` of line 396 is true whenever
`hasInclude` is false, so the else branch covers exclude-mode and mode-unset
profiles alike. -/
def processProfile (zoomIPs : List String) (p : ProfileEnv) : StepOut :=
  let policyId := p.policyId
  let profileName := p.name.getD "Default"
  let isDefault := p.policyId.isNone || p.isDefaultFlag
  match p.details with
  | .error e =>
    { result := { profileId := policyId.getD "default",
                  profileName :=
                    if isDefault then profileName ++ " (Default)" else profileName,
                  success := false, error := some e },
      didUpdate := false, didFail := true, write := none }
  | .ok d =>
    let hasInclude := 0 < (d.includeList.getD []).length
    let displayName := if isDefault then "Default" else profileName
    if hasInclude then
      { result := { profileId := policyId.getD "default", profileName := displayName,
                    success := false, reason := some includeModeReason },
        didUpdate := false, didFail := true, write := none }
    else
      let merged := mergeSplitTunnelExcludeEntries (d.excludeList.getD []) zoomIPs
      match p.putOutcome with
      | .ok _ =>
        { result := { profileId := policyId.getD "default", profileName := displayName,
                      success := true, reason := some excludeModeReason },
          didUpdate := true, didFail := false, write := some merged }
      | .error e =>
        { result := { profileId := policyId.getD "default",
                      profileName :=
                        if isDefault then profileName ++ " (Default)" else profileName,
                      success := false, error := some e },
          didUpdate := false, didFail := true, write := some merged }

/-- Return shape of `updateAccountWithZoomIPs`. -/
structure AccountUpdateOutcome where
  success : Bool
  updated : Nat
  failed : Nat
  results : List ProfileResult

/-- `updateAccountWithZoomIPs` (`cloudflareAPI.ts` 343–451).  The error case
is the outer catch (profile enumeration failed before the loop ran):
`success := false` and `failed` incremented from its current value 0.
Otherwise every profile is processed and the aggregate `success` is
`failed === 0`.  The second component collects the exclude lists PUT to the
API during the pass. -/
def updateAccountWithZoomIPs (profilesOutcome : Except String (List ProfileEnv))
    (zoomIPs : List String) : AccountUpdateOutcome × List (List SplitTunnelEntry) :=
  match profilesOutcome with
  | .error _ => ({ success := false, updated := 0, failed := 1, results := [] }, [])
  | .ok ps =>
    let steps := ps.map (processProfile zoomIPs)
    let updated := (steps.filter fun s => s.didUpdate).length
    let failed := (steps.filter fun s => s.didFail).length
    ({ success := failed == 0, updated := updated, failed := failed,
       results := steps.map fun s => s.result },
     steps.filterMap fun s => s.write)

/-! ### Orchestrator (`warpProfileManager.ts`, `performUpdate` 803–931) -/

/-- `hasIPChanges` (`warpProfileManager.ts` 985–1018): changed when no
previous data, counts differ, or either set difference is non-empty
(membership tests via a `Set` of strings). -/
def hasIPChanges (previous : Option ZoomIPData) (current : ZoomIPData) : Bool :=
  match previous with
  | none => true
  | some prev =>
    if prev.total_count ≠ current.total_count then true
    else if current.ips.any fun ip => !(prev.ips.contains ip) then true
    else if prev.ips.any fun ip => !(current.ips.contains ip) then true
    else false

/-- The remote-call outcomes one `performUpdate` invocation would observe:
account listing, stored/env account selection, the Zoom fetch, profile
enumeration — plus the wall-clock values used in the result. -/
structure ManagerEnv where
  accountsOutcome : Except String (List (String × String))
  selectedOutcome : Except String (Option (String × String))
  fetchOutcome : Except String ZoomIPData
  profilesOutcome : Except String (List ProfileEnv)
  now : Int
  elapsed : Int

/-- Lines 812–826: resolve the target account (id, name): an explicit id is
looked up in the account list, otherwise the selected account is used;
both paths throw on failure. -/
def resolveTarget (env : ManagerEnv) (accountId : Option String) :
    Except String (String × String) :=
  match accountId with
  | none =>
    match env.selectedOutcome with
    | .error e => .error e
    | .ok none => .error "No account selected. Please select an account first."
    | .ok (some s) => .ok s
  | some aid =>
    match env.accountsOutcome with
    | .error e => .error e
    | .ok accs =>
      match accs.find? fun a => a.1 == aid with
      | none => .error ("Account " ++ aid ++ " not found")
      | some a => .ok a

/-- Lines 831–849: obtain the IP snapshot (fresh when forced or when the
cache is empty) together with the `fetchedFresh` flag. -/
def obtainSnapshot (env : ManagerEnv) (st : Storage) (forceFetch : Bool) :
    Except String (ZoomIPData × Bool) :=
  if forceFetch then
    match env.fetchOutcome with
    | .error e => .error e
    | .ok d => .ok (d, true)
  else
    match st.zoomIPs with
    | some d => .ok (d, false)
    | none =>
      match env.fetchOutcome with
      | .error e => .error e
      | .ok d => .ok (d, true)

/-- The no-op result of the short-circuit path (lines 856–867). -/
def noopResult (env : ManagerEnv) (target : String × String) (totalCount : Nat) :
    UpdateResult :=
  { success := true, timestamp := env.now, account_id := target.1,
    account_name := target.2, profiles_updated := 0, profiles_failed := 0,
    ips_added := totalCount, processing_time_ms := env.elapsed,
    message := some "No changes detected in Zoom IP list - profiles not updated",
    updated_profiles := [] }

/-- The result built from the account update (lines 886–903):
`success := updateResults.updated > 0`. -/
def applyResult (env : ManagerEnv) (target : String × String) (totalCount : Nat)
    (u : AccountUpdateOutcome) : UpdateResult :=
  { success := decide (0 < u.updated), account_id := target.1,
    account_name := target.2, profiles_updated := u.updated,
    profiles_failed := u.failed, ips_added := totalCount,
    processing_time_ms := env.elapsed, timestamp := env.now,
    updated_profiles := u.results }

/-- The body of `performUpdate`'s `try` block (lines 807–909): resolve the
account, obtain the snapshot (the previous data for change detection is the
cache content read before fetching), short-circuit to a no-op result when
nothing changed and the run is not forced, otherwise persist a fresh
snapshot, run the account update, and build the result with
`success := updateResults.updated > 0`.  Every path stores its result.  The
returned flag records whether `updateAccountWithZoomIPs` was invoked. -/
def tryBody (env : ManagerEnv) (st : Storage) (accountId : Option String)
    (forceFetch : Bool) : Except String (UpdateResult × Storage × Bool) :=
  match resolveTarget env accountId with
  | .error e => .error e
  | .ok target =>
    match obtainSnapshot env st forceFetch with
    | .error e => .error e
    | .ok (zoomIPData, fetchedFresh) =>
      let hasChanges := hasIPChanges st.zoomIPs zoomIPData
      if !hasChanges && !forceFetch then
        let result := noopResult env target zoomIPData.total_count
        .ok (result, storeLastUpdate result st, false)
      else
        let st1 := if fetchedFresh then { st with zoomIPs := some zoomIPData } else st
        let u := (updateAccountWithZoomIPs env.profilesOutcome zoomIPData.ips).1
        let result := applyResult env target zoomIPData.total_count u
        .ok (result, storeLastUpdate result st1, true)

/-- Result of one `performUpdate` invocation: the returned `UpdateResult`,
the storage afterwards, and whether the account update ran. -/
structure PerformOutcome where
  result : UpdateResult
  storage : Storage
  calledAccountUpdate : Bool

/-- `performUpdate` (803–931): the catch clause (911–930) converts any error
raised in the try block into a failed result — zero counts, message
captured — and still persists it. -/
def performUpdate (env : ManagerEnv) (st : Storage) (accountId : Option String)
    (forceFetch : Bool) : PerformOutcome :=
  match tryBody env st accountId forceFetch with
  | .ok (r, st', called) =>
    { result := r, storage := st', calledAccountUpdate := called }
  | .error msg =>
    let r : UpdateResult :=
      { success := false, account_id := accountId.getD "", account_name := "",
        profiles_updated := 0, profiles_failed := 0, ips_added := 0,
        processing_time_ms := env.elapsed, timestamp := env.now,
        error := some msg, updated_profiles := [] }
    { result := r, storage := storeLastUpdate r st, calledAccountUpdate := false }

theorem storeLastUpdate_last (r : UpdateResult) (st : Storage) :
    (storeLastUpdate r st).lastUpdate = some r := rfl

theorem storeLastUpdate_head (r : UpdateResult) (st : Storage) :
    (storeLastUpdate r st).history.head? = some r := by
  simp only [storeLastUpdate, appendUpdateHistory_eq_take]
  rw [show (50 : Nat) = 49 + 1 from rfl, List.take_succ_cons]
  rfl

theorem hasIPChanges_self (d : ZoomIPData) : hasIPChanges (some d) d = false := by
  have h : (d.ips.any fun ip => !(d.ips.contains ip)) = false := by
    rw [List.any_eq_false]
    intro ip hip
    simp [hip]
  simp [hasIPChanges, h]

/-- C5: with `force_fetch` false, a cached snapshot present, a resolvable
target account, and change detection reporting no change against the
previously stored snapshot, `performUpdate` short-circuits: the returned
result records zero profiles updated and zero failed, the access-control
client is never asked to update a profile, and the no-op result is still
persisted as last result and prepended to history. -/
theorem no_change_short_circuit (env : ManagerEnv) (st : Storage)
    (accountId : Option String) (d : ZoomIPData) (target : String × String)
    (hres : resolveTarget env accountId = .ok target)
    (hcache : st.zoomIPs = some d)
    (hnochange : hasIPChanges st.zoomIPs d = false) :
    (performUpdate env st accountId false).result.profiles_updated = 0
    ∧ (performUpdate env st accountId false).result.profiles_failed = 0
    ∧ (performUpdate env st accountId false).result.success = true
    ∧ (performUpdate env st accountId false).calledAccountUpdate = false
    ∧ (performUpdate env st accountId false).storage.lastUpdate =
        some (performUpdate env st accountId false).result
    ∧ (performUpdate env st accountId false).storage.history.head? =
        some (performUpdate env st accountId false).result := by
  have hobt : obtainSnapshot env st false = .ok (d, false) := by
    simp [obtainSnapshot, hcache]
  have htb : tryBody env st accountId false =
      .ok (noopResult env target d.total_count,
        storeLastUpdate (noopResult env target d.total_count) st, false) := by
    simp [tryBody, hres, hobt, hnochange]
  simp only [performUpdate, htb]
  simp [noopResult, storeLastUpdate_last, storeLastUpdate_head]

/-- A one-entry cached snapshot. -/
def snapC5 : ZoomIPData := { ips := ["1.2.3.4"], total_count := 1 }

/-- Environment for the C5 witness: an account is selected and the cache is
warm; the fetcher and the profile enumeration are never consulted. -/
def envC5 : ManagerEnv :=
  { accountsOutcome := .ok [], selectedOutcome := .ok (some ("acc1", "Acme")),
    fetchOutcome := .error "unused", profilesOutcome := .ok [],
    now := 1700000000000, elapsed := 12 }

/-- Storage for the C5 witness. -/
def stC5 : Storage := { zoomIPs := some snapC5, lastUpdate := none, history := [] }

/-- Concrete instantiation of the C5 short-circuit theorem: selected account,
warm cache, unchanged snapshot, no forced fetch. -/
theorem no_change_short_circuit_witness :
    (resolveTarget envC5 none = .ok ("acc1", "Acme")
      ∧ stC5.zoomIPs = some snapC5
      ∧ hasIPChanges stC5.zoomIPs snapC5 = false)
    ∧ ((performUpdate envC5 stC5 none false).result.profiles_updated = 0
      ∧ (performUpdate envC5 stC5 none false).result.profiles_failed = 0
      ∧ (performUpdate envC5 stC5 none false).result.success = true
      ∧ (performUpdate envC5 stC5 none false).calledAccountUpdate = false
      ∧ (performUpdate envC5 stC5 none false).storage.lastUpdate =
          some (performUpdate envC5 stC5 none false).result
      ∧ (performUpdate envC5 stC5 none false).storage.history.head? =
          some (performUpdate envC5 stC5 none false).result) :=
  ⟨⟨rfl, rfl, by decide⟩,
    no_change_short_circuit envC5 stC5 none snapC5 ("acc1", "Acme") rfl rfl (by decide)⟩

/-- C6: whatever error the try block of `performUpdate` raises, the caller
receives an ordinary `UpdateResult` — no exception propagates — with
`success = false`, zero profiles updated and failed, zero IPs, the error
message captured, and that failed result is persisted as last result and
prepended to history. -/
theorem error_caught_and_persisted (env : ManagerEnv) (st : Storage)
    (accountId : Option String) (forceFetch : Bool) (msg : String)
    (h : tryBody env st accountId forceFetch = .error msg) :
    (performUpdate env st accountId forceFetch).result.success = false
    ∧ (performUpdate env st accountId forceFetch).result.profiles_updated = 0
    ∧ (performUpdate env st accountId forceFetch).result.profiles_failed = 0
    ∧ (performUpdate env st accountId forceFetch).result.ips_added = 0
    ∧ (performUpdate env st accountId forceFetch).result.error = some msg
    ∧ (performUpdate env st accountId forceFetch).storage.lastUpdate =
        some (performUpdate env st accountId forceFetch).result
    ∧ (performUpdate env st accountId forceFetch).storage.history.head? =
        some (performUpdate env st accountId forceFetch).result := by
  simp only [performUpdate, h]
  simp [storeLastUpdate_last, storeLastUpdate_head]

/-- Environment for the C6 witness: nothing is selected, so account
resolution throws inside the try block. -/
def envC6 : ManagerEnv :=
  { accountsOutcome := .ok [], selectedOutcome := .ok none,
    fetchOutcome := .error "unused", profilesOutcome := .ok [],
    now := 1700000000000, elapsed := 7 }

/-- Concrete instantiation of the C6 theorem at the "no account selected"
error. -/
theorem error_caught_and_persisted_witness :
    tryBody envC6 {} none false =
      .error "No account selected. Please select an account first."
    ∧ ((performUpdate envC6 {} none false).result.success = false
      ∧ (performUpdate envC6 {} none false).result.profiles_updated = 0
      ∧ (performUpdate envC6 {} none false).result.profiles_failed = 0
      ∧ (performUpdate envC6 {} none false).result.ips_added = 0
      ∧ (performUpdate envC6 {} none false).result.error =
          some "No account selected. Please select an account first."
      ∧ (performUpdate envC6 {} none false).storage.lastUpdate =
          some (performUpdate envC6 {} none false).result
      ∧ (performUpdate envC6 {} none false).storage.history.head? =
          some (performUpdate envC6 {} none false).result) :=
  ⟨rfl, error_caught_and_persisted envC6 {} none false
    "No account selected. Please select an account first." rfl⟩

theorem processProfile_include_skip (zoomIPs : List String) (p : ProfileEnv)
    (dd : ProfileDetails) (l : List SplitTunnelEntry)
    (hdet : p.details = .ok dd) (hinc : dd.includeList = some l) (hne : l ≠ []) :
    processProfile zoomIPs p =
      { result := { profileId := p.policyId.getD "default",
                    profileName := if p.policyId.isNone || p.isDefaultFlag
                      then "Default" else p.name.getD "Default",
                    success := false, reason := some includeModeReason },
        didUpdate := false, didFail := true, write := none } := by
  have hpos : 0 < l.length := List.length_pos.mpr hne
  simp [processProfile, hdet, hinc, hpos]

theorem processProfile_didUpdate_eq_success (zoomIPs : List String) (p : ProfileEnv) :
    (processProfile zoomIPs p).didUpdate = (processProfile zoomIPs p).result.success := by
  rcases hd : p.details with e | d
  · simp [processProfile, hd]
  · simp only [processProfile, hd]
    split
    · rfl
    · rcases hp : p.putOutcome with e | u <;> simp [hp]

theorem updated_eq_success_count (zoomIPs : List String) (ps : List ProfileEnv) :
    ((ps.map (processProfile zoomIPs)).filter fun s => s.didUpdate).length =
      (((ps.map (processProfile zoomIPs)).map fun s => s.result).filter
        fun r => r.success).length := by
  induction ps with
  | nil => rfl
  | cons q qs ih =>
    simp only [List.map_cons, List.filter_cons]
    rw [processProfile_didUpdate_eq_success]
    cases hsucc : (processProfile zoomIPs q).result.success <;> simp [hsucc, ih]

/-- C7: an include-mode profile (details fetched, non-empty include list) is
skipped: the result list still has one entry per profile in order — the
following profiles are processed — the skipped profile's entry carries
`success = false` with the skip reason, no exclude list is ever PUT for it,
and the `updated` counter counts exactly the successful entries, so the
skipped profile is never among them. -/
theorem include_mode_never_updated (zoomIPs : List String)
    (pre post : List ProfileEnv) (p : ProfileEnv) (dd : ProfileDetails)
    (l : List SplitTunnelEntry)
    (hdet : p.details = .ok dd) (hinc : dd.includeList = some l) (hne : l ≠ []) :
    (updateAccountWithZoomIPs (.ok (pre ++ p :: post)) zoomIPs).1.results =
        pre.map (fun q => (processProfile zoomIPs q).result)
          ++ ({ profileId := p.policyId.getD "default",
                profileName := if p.policyId.isNone || p.isDefaultFlag
                  then "Default" else p.name.getD "Default",
                success := false,
                reason := some includeModeReason : ProfileResult }
            :: post.map fun q => (processProfile zoomIPs q).result)
    ∧ (processProfile zoomIPs p).write = none
    ∧ (updateAccountWithZoomIPs (.ok (pre ++ p :: post)) zoomIPs).1.updated =
        ((updateAccountWithZoomIPs (.ok (pre ++ p :: post)) zoomIPs).1.results.filter
          fun r => r.success).length := by
  have hstep := processProfile_include_skip zoomIPs p dd l hdet hinc hne
  refine ⟨?_, ?_, ?_⟩
  · simp [updateAccountWithZoomIPs, List.map_append, hstep, Function.comp_def]
  · rw [hstep]
  · simp only [updateAccountWithZoomIPs]
    exact updated_eq_success_count zoomIPs (pre ++ p :: post)

/-- An exclude-mode profile whose PUT succeeds. -/
def profOk : ProfileEnv :=
  { policyId := some "pol1", name := some "Laptops", isDefaultFlag := false,
    details := .ok { includeList := none,
                     excludeList := some [⟨"5.5.5.5", some "VPN exempt"⟩] },
    putOutcome := .ok () }

/-- The include list of the include-mode profile below. -/
def incList : List SplitTunnelEntry := [⟨"10.0.0.0/8", none⟩]

/-- Details of an include-mode profile. -/
def ddInc : ProfileDetails := { includeList := some incList, excludeList := none }

/-- An include-mode profile. -/
def profInc : ProfileEnv :=
  { policyId := some "pol2", name := some "Included", isDefaultFlag := false,
    details := .ok ddInc, putOutcome := .ok () }

/-- A default profile whose PUT fails. -/
def profErr : ProfileEnv :=
  { policyId := none, name := none, isDefaultFlag := true,
    details := .ok { includeList := none, excludeList := some [] },
    putOutcome := .error "HTTP 500" }

/-- Concrete instantiation of the C7 theorem: the include-mode profile sits
between a successful and a failing profile. -/
theorem include_mode_never_updated_witness :
    (profInc.details = .ok ddInc ∧ ddInc.includeList = some incList ∧ incList ≠ [])
    ∧ ((updateAccountWithZoomIPs (.ok ([profOk] ++ profInc :: [profErr]))
          ["9.9.9.9"]).1.results =
        [profOk].map (fun q => (processProfile ["9.9.9.9"] q).result)
          ++ ({ profileId := profInc.policyId.getD "default",
                profileName := if profInc.policyId.isNone || profInc.isDefaultFlag
                  then "Default" else profInc.name.getD "Default",
                success := false,
                reason := some includeModeReason : ProfileResult }
            :: [profErr].map fun q => (processProfile ["9.9.9.9"] q).result)
      ∧ (processProfile ["9.9.9.9"] profInc).write = none
      ∧ (updateAccountWithZoomIPs (.ok ([profOk] ++ profInc :: [profErr]))
            ["9.9.9.9"]).1.updated =
          ((updateAccountWithZoomIPs (.ok ([profOk] ++ profInc :: [profErr]))
            ["9.9.9.9"]).1.results.filter fun r => r.success).length) :=
  ⟨⟨rfl, rfl, by simp [incList]⟩,
    include_mode_never_updated ["9.9.9.9"] [profOk] [profErr] profInc ddInc incList
      rfl rfl (by simp [incList])⟩

/-- C9: an include-mode profile makes `didFail` true, exactly as a profile
whose update threw; `failed` counts all such profiles; and therefore the
aggregate `success` flag — computed as `failed == 0` — is false whenever at
least one include-mode profile is present, even if every other profile
updated successfully. -/
theorem include_mode_forces_aggregate_failure (zoomIPs : List String)
    (ps : List ProfileEnv) (p : ProfileEnv) (dd : ProfileDetails)
    (l : List SplitTunnelEntry) (hmem : p ∈ ps)
    (hdet : p.details = .ok dd) (hinc : dd.includeList = some l) (hne : l ≠ []) :
    (processProfile zoomIPs p).didFail = true
    ∧ (updateAccountWithZoomIPs (.ok ps) zoomIPs).1.failed =
        ((ps.map (processProfile zoomIPs)).filter fun s => s.didFail).length
    ∧ 0 < (updateAccountWithZoomIPs (.ok ps) zoomIPs).1.failed
    ∧ (updateAccountWithZoomIPs (.ok ps) zoomIPs).1.success = false := by
  have hstep := processProfile_include_skip zoomIPs p dd l hdet hinc hne
  have hfail : (processProfile zoomIPs p).didFail = true := by rw [hstep]
  have hmem2 : processProfile zoomIPs p ∈
      (ps.map (processProfile zoomIPs)).filter fun s => s.didFail :=
    List.mem_filter.mpr ⟨List.mem_map_of_mem _ hmem, hfail⟩
  have hpos : 0 < ((ps.map (processProfile zoomIPs)).filter fun s => s.didFail).length :=
    List.length_pos.mpr (List.ne_nil_of_mem hmem2)
  refine ⟨hfail, rfl, hpos, ?_⟩
  simp only [updateAccountWithZoomIPs]
  exact beq_eq_false_iff_ne.mpr (Nat.pos_iff_ne_zero.mp hpos)

/-- Concrete instantiation of the C9 theorem: one successful profile and one
include-mode profile; the aggregate success flag is false. -/
theorem include_mode_forces_aggregate_failure_witness :
    (profInc ∈ [profOk, profInc] ∧ incList ≠ [])
    ∧ ((processProfile ["9.9.9.9"] profInc).didFail = true
      ∧ (updateAccountWithZoomIPs (.ok [profOk, profInc]) ["9.9.9.9"]).1.failed =
          (([profOk, profInc].map (processProfile ["9.9.9.9"])).filter
            fun s => s.didFail).length
      ∧ 0 < (updateAccountWithZoomIPs (.ok [profOk, profInc]) ["9.9.9.9"]).1.failed
      ∧ (updateAccountWithZoomIPs (.ok [profOk, profInc]) ["9.9.9.9"]).1.success =
          false) :=
  ⟨⟨by simp, by simp [incList]⟩,
    include_mode_forces_aggregate_failure ["9.9.9.9"] [profOk, profInc] profInc
      ddInc incList (by simp) rfl rfl (by simp [incList])⟩

theorem tryBody_called_success {env : ManagerEnv} {st : Storage}
    {accountId : Option String} {forceFetch : Bool} {r : UpdateResult}
    {st' : Storage} {called : Bool}
    (htb : tryBody env st accountId forceFetch = .ok (r, st', called))
    (hc : called = true) :
    r.success = decide (0 < r.profiles_updated) := by
  subst hc
  simp only [tryBody] at htb
  cases hres : resolveTarget env accountId with
  | error e => rw [hres] at htb; exact absurd htb (by simp)
  | ok target =>
    rw [hres] at htb
    cases hobt : obtainSnapshot env st forceFetch with
    | error e => rw [hobt] at htb; exact absurd htb (by simp)
    | ok pair =>
      rw [hobt] at htb
      obtain ⟨d, fresh⟩ := pair
      by_cases hcond : (!hasIPChanges st.zoomIPs d && !forceFetch) = true
      · simp [hcond] at htb
      · simp only [Bool.not_eq_true] at hcond
        simp [hcond] at htb
        rw [← htb.1]
        simp [applyResult]

/-- C10: on every run in which the account update was invoked (the
non-short-circuit path), the returned result's `success` equals
`profiles_updated > 0`; it does not depend on `profiles_failed`. -/
theorem success_iff_any_profile_updated (env : ManagerEnv) (st : Storage)
    (accountId : Option String) (forceFetch : Bool)
    (h : (performUpdate env st accountId forceFetch).calledAccountUpdate = true) :
    (performUpdate env st accountId forceFetch).result.success =
      decide (0 < (performUpdate env st accountId forceFetch).result.profiles_updated) := by
  cases htb : tryBody env st accountId forceFetch with
  | error msg => simp [performUpdate, htb] at h
  | ok triple =>
    obtain ⟨r, st', called⟩ := triple
    have hc : called = true := by simpa [performUpdate, htb] using h
    have hs := tryBody_called_success htb hc
    simpa [performUpdate, htb] using hs

/-- Environment for the C10 witness: a forced run over three profiles of
which one updates, one is include-mode, and one fails its PUT — so the pass
has failures, yet `success` is true because one profile updated. -/
def envC10 : ManagerEnv :=
  { accountsOutcome := .ok [], selectedOutcome := .ok (some ("acc1", "Acme")),
    fetchOutcome := .ok snapC5, profilesOutcome := .ok [profOk, profInc, profErr],
    now := 1700000000000, elapsed := 9 }

/-- Concrete instantiation of the C10 theorem: two of three profiles fail,
one updates, and the run reports `success = true` (= `updated > 0`). -/
theorem success_iff_any_profile_updated_witness :
    (performUpdate envC10 {} none true).calledAccountUpdate = true
    ∧ (performUpdate envC10 {} none true).result.success =
        decide (0 < (performUpdate envC10 {} none true).result.profiles_updated)
    ∧ (performUpdate envC10 {} none true).result.profiles_updated = 1
    ∧ (performUpdate envC10 {} none true).result.profiles_failed = 2
    ∧ (performUpdate envC10 {} none true).result.success = true :=
  ⟨rfl, success_iff_any_profile_updated envC10 {} none true rfl, rfl, rfl, rfl⟩

end Warp
